import Mathlib

/-!
Verification of the portfolio simulation and analytics engine
(QuantA_single_asset/single_asset_module.py and
QuantB_portfolio/portfolio_module.py) against its natural-language
specification.

The Python code operates on pandas Series/DataFrames of floats.  The
embedding below models numeric values as exact rationals (`ℚ`), a missing
value (NaN in a pandas column) as `none : Option ℚ`, a pandas column as a
`List`, and a DataFrame row of an n-column price/return table as a total
function `Fin n → ℚ` (rows are total after the source's `dropna`).
Quantities produced through `math.sqrt`/`np.exp` (volatility, Sharpe
ratio) live in `ℝ` via `Real.sqrt`/`Real.exp`; everything else is
computable.  Dates (`pd.DatetimeIndex` entries) are modelled as natural
numbers counting days since 1970-01-01 (a Thursday), which is enough to
recover weekday structure and the civil calendar.
-/

/-! ### Generic list helpers (pandas column primitives) -/

/-- Arithmetic mean of a list of rationals (`Series.mean()`).  For the
empty list this is `0 / 0 = 0` in `ℚ`; all uses are guarded by
non-emptiness exactly where the source guards `.empty`. -/
def listMean (xs : List ℚ) : ℚ := xs.sum / xs.length

/-- Sample variance with `ddof = 1` — the square of `Series.std()`.
pandas returns NaN when fewer than two observations exist, hence the
`Option`. -/
def sampleVarQ (xs : List ℚ) : Option ℚ :=
  if xs.length < 2 then none
  else some ((xs.map (fun x => (x - listMean xs) ^ 2)).sum / ((xs.length : ℚ) - 1))

/-- Cumulative product (`Series.cumprod()`). -/
def cumprod (xs : List ℚ) : List ℚ := (xs.scanl (· * ·) 1).tail

/-- Cumulative sum (`Series.cumsum()`). -/
def cumsum (xs : List ℚ) : List ℚ := (xs.scanl (· + ·) 0).tail

/-- Helper for `cummax`: running maxima continuing from `m`. -/
def cummaxFrom (m : ℚ) : List ℚ → List ℚ
  | [] => []
  | x :: rest => max m x :: cummaxFrom (max m x) rest

/-- Running maximum (`Series.cummax()`). -/
def cummax : List ℚ → List ℚ
  | [] => []
  | x :: rest => x :: cummaxFrom x rest

/-- Minimum of a non-empty list (`Series.min()`); `0` on the empty list
(all uses are guarded, matching the source's emptiness guards). -/
def listMinQ : List ℚ → ℚ
  | [] => 0
  | x :: rest => rest.foldl min x

/-- One-period shift with zero fill (`Series.shift(1).fillna(0)`): the
first entry becomes `0` and every other entry is its predecessor. -/
def shiftFill (xs : List ℚ) : List ℚ :=
  match xs with
  | [] => []
  | _ :: _ => 0 :: xs.dropLast

/-- Fractional change with zero fill (`Series.pct_change().fillna(0.0)`):
entry `t` is `x_t / x_{t-1} - 1`, and entry `0` (NaN in pandas) is `0`. -/
def pctChangeFill (xs : List ℚ) : List ℚ :=
  match xs with
  | [] => []
  | _ :: rest => 0 :: List.zipWith (fun cur prev => cur / prev - 1) rest xs

/-- Shift by `k` periods (`Series.shift(k)`), missing entries `none`. -/
def shiftOpt (k : ℕ) (xs : List ℚ) : List (Option ℚ) :=
  List.replicate (min k xs.length) none ++ (xs.take (xs.length - k)).map some

/-! ### Single-asset strategies (`single_asset_module.py`) -/

/-- Error raised by pandas positional indexing on an empty frame
(`out["Close"].iloc[0]` with no valid rows). -/
inductive BHErr
  | indexError
deriving DecidableEq, Repr

/-- Output frame of `buy_and_hold_strategy`: the `Close`, `Holdings` and
`Strategy_Return` columns.  `Holdings`/`Strategy_Return` entries are
`Option ℚ` because the source writes `np.nan` into whole columns on a
non-positive first price. -/
structure BHOut where
  close : List ℚ
  holdings : List (Option ℚ)
  strategyReturn : List (Option ℚ)
deriving DecidableEq, Repr

/-- Embedding of `buy_and_hold_strategy(df, initial_capital)`.  The input
is the `Close` column (with possible missing values); the source first
drops missing values, then checks the first price.  If the first valid
price is `≤ 0` the source does NOT raise: it fills `Holdings` and
`Strategy_Return` with NaN and returns the frame normally. -/
def buy_and_hold_strategy (data : List (Option ℚ)) (initial_capital : ℚ) :
    Except BHErr BHOut :=
  let cl := data.filterMap id
  match cl with
  | [] => .error .indexError
  | p0 :: _ =>
    if p0 ≤ 0 then
      .ok ⟨cl, cl.map fun _ => none, cl.map fun _ => none⟩
    else
      let shares := initial_capital / p0
      let hold := cl.map fun p => shares * p
      .ok ⟨cl, hold.map some, (pctChangeFill hold).map some⟩

/-- Lookback-return column of `momentum_strategy`:
`Close / Close.shift(lookback) - 1.0` (missing where the shift is). -/
def lookbackReturns (cl : List ℚ) (lookback : ℕ) : List (Option ℚ) :=
  List.zipWith (fun c p? => p?.map fun p => c / p - 1) cl (shiftOpt lookback cl)

/-- Signal column of `momentum_strategy`:
`(Lookback_Return > threshold).astype(int)` — a NaN comparison is False,
so missing lookback returns give signal `0`. -/
def signalsOf (cl : List ℚ) (lookback : ℕ) (threshold : ℚ) : List ℚ :=
  (lookbackReturns cl lookback).map fun r? =>
    match r? with
    | none => 0
    | some r => if threshold < r then 1 else 0

/-- Asset-return column: `Close.pct_change().fillna(0.0)`. -/
def assetReturns (cl : List ℚ) : List ℚ := pctChangeFill cl

/-- Strategy-return column:
`Signal.shift(1).fillna(0).astype(int) * Asset_Return`. -/
def strategyReturnsOf (cl : List ℚ) (lookback : ℕ) (threshold : ℚ) : List ℚ :=
  List.zipWith (· * ·) (shiftFill (signalsOf cl lookback threshold)) (assetReturns cl)

/-- Holdings column: `initial_capital * (1.0 + Strategy_Return).cumprod()`. -/
def momentumHoldings (cl : List ℚ) (initial_capital : ℚ) (lookback : ℕ)
    (threshold : ℚ) : List ℚ :=
  (cumprod ((strategyReturnsOf cl lookback threshold).map (1 + ·))).map
    (initial_capital * ·)

/-- Output frame of `momentum_strategy`. -/
structure MomentumOut where
  close : List ℚ
  signal : List ℚ
  assetReturn : List ℚ
  strategyReturn : List ℚ
  holdings : List ℚ
deriving DecidableEq, Repr

/-- Embedding of `momentum_strategy(df, initial_capital, lookback,
threshold)` over the `Close` column (missing values dropped first, as in
the source). -/
def momentum_strategy (data : List (Option ℚ)) (initial_capital : ℚ)
    (lookback : ℕ) (threshold : ℚ) : MomentumOut :=
  let cl := data.filterMap id
  ⟨cl, signalsOf cl lookback threshold, assetReturns cl,
    strategyReturnsOf cl lookback threshold,
    momentumHoldings cl initial_capital lookback threshold⟩

/-! ### Single-asset metrics (`calculate_metrics`)

The source returns a dict; each key is embedded as one function.  The
inputs are the `Holdings` and `Strategy_Return` columns (missing values
possible, dropped inside, as in the source), the initial capital, and
`trading_days`.  The guard cascade (`df_strat.empty` / `holdings.empty`
/ `rets.empty`) maps to the emptiness tests on the dropna'd columns. -/

/-- Key `"Final Value"`: last holdings value, or the initial capital on a
degenerate input. -/
def singleFinalValue (holdings : List (Option ℚ)) (initial_capital : ℚ) : ℚ :=
  let hv := holdings.filterMap id
  if hv = [] then initial_capital else hv.getLastD 0

/-- Key `"Total Return"`: `final_value / initial_capital - 1`, or `0` on a
degenerate input.  (A zero initial capital would be an `inf` in Python; no
claim touches that point and `ℚ` division by zero gives `0`.) -/
def singleTotalReturn (holdings : List (Option ℚ)) (initial_capital : ℚ) : ℚ :=
  let hv := holdings.filterMap id
  if hv = [] then 0 else hv.getLastD 0 / initial_capital - 1

/-- Key `"Annual Return"`: `(1 + rets.mean()) ** trading_days - 1`, or `0`
when there are no holdings or no returns. -/
def singleAnnualReturn (holdings rets : List (Option ℚ)) (trading_days : ℕ) : ℚ :=
  let hv := holdings.filterMap id
  let rv := rets.filterMap id
  if hv = [] then 0
  else if rv = [] then 0
  else (1 + listMean rv) ^ trading_days - 1

/-- Annualized volatility from a sample variance:
`sqrt(variance) * sqrt(periods)` — i.e. `std() * np.sqrt(periods)`. -/
noncomputable def annVol (v : ℚ) (N : ℕ) : ℝ :=
  Real.sqrt (v : ℝ) * Real.sqrt (N : ℝ)

/-- Key `"Volatility"`: `rets.std() * sqrt(trading_days)`; `none` encodes
the NaN that pandas produces for a single observation. -/
noncomputable def singleVolatility (holdings rets : List (Option ℚ))
    (trading_days : ℕ) : Option ℝ :=
  let hv := holdings.filterMap id
  let rv := rets.filterMap id
  if hv = [] then some 0
  else if rv = [] then some 0
  else (sampleVarQ rv).map fun v => annVol v trading_days

/-- Key `"Sharpe Ratio"`: `ann_return / vol if vol > 0 else 0.0` — note
the source substitutes the finite value `0.0` (not NaN) when the
volatility is zero or NaN, and it subtracts no risk-free rate. -/
noncomputable def singleSharpe (holdings rets : List (Option ℚ))
    (trading_days : ℕ) : Option ℝ :=
  let hv := holdings.filterMap id
  let rv := rets.filterMap id
  if hv = [] then some 0
  else if rv = [] then some 0
  else
    match (sampleVarQ rv).map (fun v => annVol v trading_days) with
    | none => some 0
    | some vol =>
      if 0 < vol then some ((singleAnnualReturn holdings rets trading_days : ℝ) / vol)
      else some 0

/-- Embedding of `_max_drawdown(equity_curve)`:
`(equity_curve / equity_curve.cummax() - 1).min()`. -/
def max_drawdown_of (equity : List ℚ) : ℚ :=
  listMinQ (List.zipWith (fun v m => v / m - 1) equity (cummax equity))

/-- Key `"Max Drawdown"`: `_max_drawdown(holdings)`, or `0` on a
degenerate input. -/
def singleMaxDrawdown (holdings : List (Option ℚ)) : ℚ :=
  let hv := holdings.filterMap id
  if hv = [] then 0 else max_drawdown_of hv

/-! ### Forecast engine (`run_predictive_model`)

The source fits `sklearn.linear_model.LinearRegression` on a fixed 5-lag
feature window.  The fit itself is external library code; its learned
parameters enter the embedding as inputs (`coef`, `icept`), and every
downstream quantity — test predictions, held-out RMSE, the ±1.96·RMSE
band, and the recursive forecast — is embedded from the source for
arbitrary fitted parameters.  The returned `future_dates`
(`pd.bdate_range` presentation) is not modelled; no claim concerns it. -/

/-- Feature/target rows after building `Lag_1 … Lag_5` and dropping
incomplete rows: row `t` (for `5 ≤ t < len`) has features
`(Close[t-1], …, Close[t-5])` and target `Close[t]`. -/
def lagRows (cl : List ℚ) : List ((Fin 5 → ℚ) × ℚ) :=
  (List.range cl.length).filterMap fun t =>
    if 5 ≤ t then some (fun i : Fin 5 => cl.getD (t - (i.val + 1)) 0, cl.getD t 0)
    else none

/-- Train/test split point: `int(len(df) * 0.8)` (the float product is
exact for the magnitudes involved, so this is `⌊len · 4/5⌋`). -/
def splitPoint (m : ℕ) : ℕ := m * 8 / 10

/-- `model.predict` of a fitted `LinearRegression` on one feature row:
`intercept + Σ coef_i · x_i`. -/
def lrPredict (coef : Fin 5 → ℝ) (icept : ℝ) (x : Fin 5 → ℚ) : ℝ :=
  icept + ∑ i, coef i * (x i : ℝ)

/-- Held-out mean squared error: `mean_squared_error(y_test, y_pred_test)`
with the test set being the trailing rows from the split point. -/
noncomputable def testMSE (coef : Fin 5 → ℝ) (icept : ℝ) (cl : List ℚ) : ℝ :=
  let rows := lagRows cl
  let tst := rows.drop (splitPoint rows.length)
  ((tst.map fun r => (((r.2 : ℝ)) - lrPredict coef icept r.1) ^ 2).sum) / tst.length

/-- Held-out RMSE: `np.sqrt(mean_squared_error(...))`, computed once. -/
noncomputable def testRMSE (coef : Fin 5 → ℝ) (icept : ℝ) (cl : List ℚ) : ℝ :=
  Real.sqrt (testMSE coef icept cl)

/-- Held-out coefficient of determination `r2_score(y_test, y_pred_test)`. -/
noncomputable def testR2 (coef : Fin 5 → ℝ) (icept : ℝ) (cl : List ℚ) : ℝ :=
  let rows := lagRows cl
  let tst := rows.drop (splitPoint rows.length)
  let ybar := (tst.map fun r => (r.2 : ℝ)).sum / tst.length
  1 - ((tst.map fun r => ((r.2 : ℝ) - lrPredict coef icept r.1) ^ 2).sum) /
    ((tst.map fun r => ((r.2 : ℝ) - ybar) ^ 2).sum)

/-- One step of the recursive lag-vector update: the new prediction
becomes lag 1 and the oldest lag is dropped
(`last_features[:, 1:] = last_features[:, :-1]; last_features[:, 0] = pred`). -/
def shiftFeatures (p : ℝ) (x : Fin 5 → ℝ) : Fin 5 → ℝ :=
  fun i => if h : i.val = 0 then p else x ⟨i.val - 1, by omega⟩

/-- Recursive forecast loop: predict from the current lag vector, append,
shift, repeat `horizon` times. -/
noncomputable def futurePredsFrom (coef : Fin 5 → ℝ) (icept : ℝ)
    (x : Fin 5 → ℝ) : ℕ → List ℝ
  | 0 => []
  | k + 1 =>
    let p := icept + ∑ i, coef i * x i
    p :: futurePredsFrom coef icept (shiftFeatures p x) k

/-- The last available feature row `X.iloc[-1]` (the source raises on an
empty frame; all theorems assume enough data so the row exists). -/
def lastFeatures (cl : List ℚ) : Fin 5 → ℝ :=
  match (lagRows cl).getLast? with
  | some r => fun i => (r.1 i : ℝ)
  | none => fun _ => 0

/-- Result of `run_predictive_model`: point forecasts, lower and upper
band, and held-out R². -/
structure FCOut where
  futurePreds : List ℝ
  lowerBound : List ℝ
  upperBound : List ℝ
  r2 : ℝ

/-- Embedding of `run_predictive_model(data, forecast_days)` for a fitted
model `(coef, icept)`: the recursive point forecast, and the bands
`p ∓ 1.96 * rmse` applied uniformly to every step. -/
noncomputable def run_predictive_model (coef : Fin 5 → ℝ) (icept : ℝ)
    (data : List (Option ℚ)) (forecast_days : ℕ) : FCOut :=
  let cl := data.filterMap id
  let ci := 1.96 * testRMSE coef icept cl
  let preds := futurePredsFrom coef icept (lastFeatures cl) forecast_days
  ⟨preds, preds.map (· - ci), preds.map (· + ci), testR2 coef icept cl⟩

/-! ### Portfolio weights (`normalize_weights`)

The supplied weights (a dict/Series) are modelled as an association list
keyed by the asset identifier; `reindex(columns).fillna(0.0)` is a keyed
lookup defaulting to `0`.  The `weights is None` early return (an empty
Series) is not modelled: every claim concerns a supplied weight vector,
and the dashboards always pass a dict. -/

/-- Keyed lookup with default `0` (`Series.reindex(columns).fillna(0.0)`
for one column). -/
def lookupWeight {α : Type} [DecidableEq α] (ws : List (α × ℚ)) (c : α) : ℚ :=
  match ws.find? (fun p => decide (p.1 = c)) with
  | some p => p.2
  | none => 0

/-- Embedding of `normalize_weights(weights, columns)`: align the
supplied weights on the columns, and divide by the sum — unless the sum
is exactly zero, in which case every column gets the equal weight
`1 / len(columns)`. -/
def normalize_weights {α : Type} [DecidableEq α] (ws : List (α × ℚ))
    (columns : List α) : List ℚ :=
  let aligned := columns.map (lookupWeight ws)
  let s := aligned.sum
  if s = 0 then columns.map fun _ => 1 / (columns.length : ℚ)
  else aligned.map fun x => x / s

/-! ### Rebalancing dates (`_rebal_dates`)

Dates are day numbers since 1970-01-01 (a Thursday).  `resample("W")`
labels each week by its ending Sunday and `resample("M")` labels each
month by its last calendar day; `.last().dropna().index` is therefore the
set of period-end *labels* of the periods containing at least one index
date, and the source intersects the index with those labels. -/

/-- The four recognized schedules (`freq` strings in the source). -/
inductive Sched
  | snone
  | daily
  | weekly
  | monthly
deriving DecidableEq, Repr

/-- The Sunday on or after day `d` — the `resample("W")` bin label of `d`
(day 0 = 1970-01-01 is a Thursday, so Sundays are `≡ 3 (mod 7)`). -/
def sundayOnOrAfter (d : ℕ) : ℕ := d + (10 - d % 7) % 7

/-- Gregorian leap year test. -/
def isLeap (y : ℕ) : Bool := y % 4 = 0 && (y % 100 != 0 || y % 400 = 0)

/-- Civil date `(year, month, day)` of day number `z` (days since
1970-01-01), by the standard days-from-civil-era algorithm. -/
def civilFromDays (z : ℕ) : ℕ × ℕ × ℕ :=
  let zs := z + 719468
  let era := zs / 146097
  let doe := zs % 146097
  let yoe := (doe - doe / 1460 + doe / 36524 - doe / 146096) / 365
  let y := yoe + era * 400
  let doy := doe - (365 * yoe + yoe / 4 - yoe / 100)
  let mp := (5 * doy + 2) / 153
  let d := doy - (153 * mp + 2) / 5 + 1
  let m := if mp < 10 then mp + 3 else mp - 9
  (if m ≤ 2 then y + 1 else y, m, d)

/-- Day number (days since 1970-01-01) of the civil date `(y, m, d)`. -/
def daysFromCivil (y m d : ℕ) : ℕ :=
  let ys := if m ≤ 2 then y - 1 else y
  let era := ys / 400
  let yoe := ys % 400
  let mp := if 2 < m then m - 3 else m + 9
  let doy := (153 * mp + 2) / 5 + d - 1
  let doe := yoe * 365 + yoe / 4 - yoe / 100 + doy
  era * 146097 + doe - 719468

/-- Number of days in month `m` of year `y`. -/
def lastDayOfMonth (y m : ℕ) : ℕ :=
  if m = 2 then (if isLeap y then 29 else 28)
  else if m = 4 ∨ m = 6 ∨ m = 9 ∨ m = 11 then 30
  else 31

/-- The last calendar day of the month containing day `d` — the
`resample("M")` bin label of `d`. -/
def monthEndLabel (d : ℕ) : ℕ :=
  match civilFromDays d with
  | (y, m, _) => daysFromCivil y m (lastDayOfMonth y m)

/-- Embedding of `_rebal_dates(index, freq)`.  For weekly/monthly the
source computes `s.resample(...).last().dropna().index` — the calendar
period-end labels of the non-empty periods — and intersects the index
with them, so an index date survives only when it *is* its period's
calendar end label. -/
def rebal_dates (index : List ℕ) (freq : Sched) : List ℕ :=
  match freq with
  | .snone => []
  | .daily => index
  | .weekly => index.filter fun d => decide (d ∈ index.map sundayOnOrAfter)
  | .monthly => index.filter fun d => decide (d ∈ index.map monthEndLabel)

/-- Modelled from the spec: "Weekly … schedules select the last available
trading date within each calendar period that also exists in the price
index" — the latest index date of each calendar week. -/
def specWeeklyRebalDates (index : List ℕ) : List ℕ :=
  index.filter fun d =>
    decide (∀ e ∈ index, sundayOnOrAfter e = sundayOnOrAfter d → e ≤ d)

/-- Modelled from the spec: the latest index date of each calendar
month. -/
def specMonthlyRebalDates (index : List ℕ) : List ℕ :=
  index.filter fun d =>
    decide (∀ e ∈ index, monthEndLabel e = monthEndLabel d → e ≤ d)

/-! ### Portfolio value (`compute_portfolio_value`)

The price table is a list of `(date, row)` pairs with total rows: the
source's `prices.dropna()` removes every row containing a missing value,
and the claims about this function concern fully-populated tables, on
which `dropna` is the identity.  The trailing
`pd.Series(dict(out)).sort_index()` is also the identity for the strictly
increasing, duplicate-free date indexes produced by the data layer. -/

/-- The date-iteration loop of `compute_portfolio_value`: value is
`Σ units·normalized price`, and on a scheduled date other than the first
(and schedule ≠ none) units are reset to `V * w / current price`. -/
def pvLoop {n : ℕ} (w : Fin n → ℚ) (d0 : ℕ) (rebal : List ℕ) (sched : Sched) :
    List (ℕ × (Fin n → ℚ)) → (Fin n → ℚ) → List ℚ
  | [], _ => []
  | (dt, nrow) :: rest, units =>
    let V := ∑ i, units i * nrow i
    V :: pvLoop w d0 rebal sched rest
      (if dt ∈ rebal ∧ dt ≠ d0 ∧ sched ≠ Sched.snone
       then fun i => V * w i / nrow i else units)

/-- Embedding of `compute_portfolio_value(prices, weights, rebalancing)`:
normalize prices to the first row, set initial units from the normalized
weights (initial value `1.0`), then run the rebalancing loop.  An empty
table (no rows, or no columns — `prices.empty` either way) returns the
empty series. -/
def compute_portfolio_value {n : ℕ} (prices : List (ℕ × (Fin n → ℚ)))
    (ws : List (Fin n × ℚ)) (sched : Sched) : List ℚ :=
  match prices with
  | [] => []
  | (d0, r0) :: _ =>
    if n = 0 then []
    else
      let w : Fin n → ℚ := fun i => (normalize_weights ws (List.finRange n)).getD i.val 0
      let norm : List (ℕ × (Fin n → ℚ)) := prices.map fun p => (p.1, fun i => p.2 i / r0 i)
      let units0 : Fin n → ℚ := fun i => 1 * w i / (r0 i / r0 i)
      pvLoop w d0 (rebal_dates (prices.map Prod.fst) sched) sched norm units0

/-! ### Portfolio metrics (`compute_portfolio_metrics`)

The source returns `None` for an empty return series and otherwise a
dict; each key is embedded as one function returning `Option`, with
`none` for the absent dict.  For the float-valued keys that can be NaN
(volatility of a single observation, Sharpe of a flat series) the inner
value is again an `Option`, `none` encoding NaN. -/

/-- Key `"mean_annual"`: `port_returns.mean() * periods_per_year` —
arithmetic scaling of the mean periodic return, not geometric
compounding. -/
def portMeanAnnual (port_returns : List ℚ) (periods_per_year : ℕ) : Option ℚ :=
  if port_returns = [] then none
  else some (listMean port_returns * periods_per_year)

/-- Key `"vol_annual"`: `port_returns.std() * sqrt(periods_per_year)`;
the inner `none` is the NaN of a single-observation standard deviation. -/
noncomputable def portVolAnnual (port_returns : List ℚ)
    (periods_per_year : ℕ) : Option (Option ℝ) :=
  if port_returns = [] then none
  else some ((sampleVarQ port_returns).map fun v => annVol v periods_per_year)

/-- Key `"sharpe"`: `(mean_annual - rf) / vol_annual if vol_annual > 0
else np.nan` (and `float(sharpe) if np.isfinite(sharpe) else np.nan`).
The inner `none` is NaN: the portfolio module really does report NaN for
a flat series, unlike the single-asset module. -/
noncomputable def portSharpe (port_returns : List ℚ) (periods_per_year : ℕ)
    (rf : ℚ) : Option (Option ℝ) :=
  if port_returns = [] then none
  else some
    (match (sampleVarQ port_returns).map (fun v => annVol v periods_per_year) with
     | none => none
     | some vol =>
       if 0 < vol then
         some ((((listMean port_returns * periods_per_year : ℚ) : ℝ) - (rf : ℝ)) / vol)
       else none)

/-- Key `"cum_value"`: `np.exp(port_returns.cumsum())` under log returns,
`(1 + port_returns).cumprod()` otherwise. -/
noncomputable def portCumValue (port_returns : List ℚ) (log_return : Bool) :
    Option (List ℝ) :=
  if port_returns = [] then none
  else some
    (if log_return then (cumsum port_returns).map fun s => Real.exp (s : ℝ)
     else (cumprod (port_returns.map (1 + ·))).map fun v => (v : ℝ))

/-- Minimum of a non-empty list of reals (`Series.min()`). -/
noncomputable def listMinR : List ℝ → ℝ
  | [] => 0
  | x :: rest => rest.foldl min x

/-- Running maximum over the reals (`Series.cummax()`). -/
noncomputable def cummaxFromR (m : ℝ) : List ℝ → List ℝ
  | [] => []
  | x :: rest => max m x :: cummaxFromR (max m x) rest

/-- Key `"max_drawdown"`: `((cum_value - running_max) / running_max).min()`. -/
noncomputable def portMaxDrawdown (port_returns : List ℚ) (log_return : Bool) :
    Option ℝ :=
  match portCumValue port_returns log_return with
  | none => none
  | some cum =>
    let rm := match cum with
      | [] => []
      | x :: rest => x :: cummaxFromR x rest
    some (listMinR (List.zipWith (fun v m => (v - m) / m) cum rm))

/-! ### Risk decomposition (`compute_risk_contributions`)

`returns.cov()` is the sample covariance (`ddof = 1`) scaled by
`periods_per_year`.  pandas produces NaN covariance entries when fewer
than two rows exist; the claims (and theorems below) concern tables with
at least two rows, where the rational formula below is exact. -/

/-- Column mean of a return table. -/
def colMean {n : ℕ} (rets : List (Fin n → ℚ)) (i : Fin n) : ℚ :=
  ((rets.map fun r => r i).sum) / rets.length

/-- Annualized sample covariance entry:
`returns.cov()[i][j] * periods_per_year`. -/
def covAnn {n : ℕ} (rets : List (Fin n → ℚ)) (periods_per_year : ℕ)
    (i j : Fin n) : ℚ :=
  ((rets.map fun r => (r i - colMean rets i) * (r j - colMean rets j)).sum /
    ((rets.length : ℚ) - 1)) * periods_per_year

/-- The normalized weight vector used by the portfolio engine, as a
function on columns. -/
def wOf {n : ℕ} (ws : List (Fin n × ℚ)) : Fin n → ℚ :=
  fun i => (normalize_weights ws (List.finRange n)).getD i.val 0

/-- Marginal contribution to variance: `(cov.values @ w)_i`. -/
def mrcOf {n : ℕ} (rets : List (Fin n → ℚ)) (ws : List (Fin n × ℚ))
    (periods_per_year : ℕ) (i : Fin n) : ℚ :=
  ∑ j, covAnn rets periods_per_year i j * wOf ws j

/-- Portfolio variance `(w.T @ cov @ w).item() = wᵗΣw`. -/
def portVarOf {n : ℕ} (rets : List (Fin n → ℚ)) (ws : List (Fin n × ℚ))
    (periods_per_year : ℕ) : ℚ :=
  ∑ i, wOf ws i * mrcOf rets ws periods_per_year i

/-- Embedding of `compute_risk_contributions(returns, weights,
periods_per_year)`: `none` is the empty DataFrame (empty input, or
non-positive portfolio variance); otherwise each asset maps to
`(weight, marginal_contrib, risk_contrib)`.  The source's presentation
sort (`sort_values`) does not change the per-asset mapping and is not
modelled. -/
def compute_risk_contributions {n : ℕ} (rets : List (Fin n → ℚ))
    (ws : List (Fin n × ℚ)) (periods_per_year : ℕ) :
    Option (Fin n → ℚ × ℚ × ℚ) :=
  if rets = [] ∨ n = 0 then none
  else
    let pv := portVarOf rets ws periods_per_year
    if pv ≤ 0 then none
    else some fun i =>
      (wOf ws i, mrcOf rets ws periods_per_year i,
        wOf ws i * mrcOf rets ws periods_per_year i / pv)

/-- Embedding of `compute_return_contributions(returns, weights,
periods_per_year)`: per asset `(weight, mu_annual, return_contrib)` with
`contrib_i = w_i * mean_i * periods_per_year` (presentation sort not
modelled). -/
def compute_return_contributions {n : ℕ} (rets : List (Fin n → ℚ))
    (ws : List (Fin n × ℚ)) (periods_per_year : ℕ) :
    Option (Fin n → ℚ × ℚ × ℚ) :=
  if rets = [] ∨ n = 0 then none
  else some fun i =>
    (wOf ws i, colMean rets i * periods_per_year,
      wOf ws i * (colMean rets i * periods_per_year))

/-! ### Helper lemmas -/

/-- Dividing each entry by `s` divides the sum by `s`. -/
theorem sum_map_div (l : List ℚ) (s : ℚ) :
    (l.map fun x => x / s).sum = l.sum / s := by
  induction l with
  | nil => simp
  | cons x xs ih => simp [ih, add_div]

/-- Length of `normalize_weights` equals the number of columns. -/
theorem normalize_weights_length {α : Type} [DecidableEq α] (ws : List (α × ℚ))
    (columns : List α) : (normalize_weights ws columns).length = columns.length := by
  simp only [normalize_weights]
  split_ifs <;> simp

/-- The normalized weights sum to exactly `1` for a non-empty universe. -/
theorem normalize_weights_sum {α : Type} [DecidableEq α] (ws : List (α × ℚ))
    (columns : List α) (hcols : columns ≠ []) :
    (normalize_weights ws columns).sum = 1 := by
  have hlen : (columns.length : ℚ) ≠ 0 := by
    have : columns.length ≠ 0 := fun h => hcols (List.length_eq_zero.mp h)
    exact_mod_cast this
  simp only [normalize_weights]
  split_ifs with hs
  · rw [List.map_const', List.sum_replicate, nsmul_eq_mul]
    field_simp
  · rw [sum_map_div, div_self hs]

/-- Summing positional entries of a list over `Fin` of its length gives
the list sum. -/
theorem sum_fin_getD (l : List ℚ) : ∑ i : Fin l.length, l.getD i 0 = l.sum := by
  induction l with
  | nil => simp
  | cons x xs ih =>
    rw [List.length_cons, Fin.sum_univ_succ]
    simp [ih]

/-- Version of `sum_fin_getD` with the length given by hypothesis. -/
theorem sum_fin_getD_of_length (l : List ℚ) (n : ℕ) (h : l.length = n) :
    ∑ i : Fin n, l.getD i 0 = l.sum := by
  subst h
  exact sum_fin_getD l

/-- Total normalized weight over the `Fin n` universe is `1`. -/
theorem wOf_sum {n : ℕ} (hn : 0 < n) (ws : List (Fin n × ℚ)) :
    ∑ i, wOf ws i = 1 := by
  have hne : List.finRange n ≠ [] := by
    intro h
    have := congrArg List.length h
    simp at this
    omega
  have hlen : (normalize_weights ws (List.finRange n)).length = n := by
    simp [normalize_weights_length]
  unfold wOf
  rw [sum_fin_getD_of_length _ n hlen, normalize_weights_sum ws _ hne]

/-- Pointwise multiplication of two columns, read with default `0`. -/
theorem getD_zipWith_mul (xs ys : List ℚ) (t : ℕ) :
    (List.zipWith (fun a b => a * b) xs ys).getD t 0 = xs.getD t 0 * ys.getD t 0 := by
  simp only [List.getD_eq_getElem?_getD, List.getElem?_zipWith']
  cases h1 : xs[t]? <;> cases h2 : ys[t]? <;> simp

/-- A shifted column keeps its length. -/
theorem length_shiftOpt (k : ℕ) (xs : List ℚ) : (shiftOpt k xs).length = xs.length := by
  simp [shiftOpt]
  omega

/-- The lookback-return column has the length of the close column. -/
theorem length_lookbackReturns (cl : List ℚ) (lb : ℕ) :
    (lookbackReturns cl lb).length = cl.length := by
  simp [lookbackReturns, length_shiftOpt]

/-- The signal column has the length of the close column. -/
theorem length_signalsOf (cl : List ℚ) (lb : ℕ) (th : ℚ) :
    (signalsOf cl lb th).length = cl.length := by
  simp [signalsOf, length_lookbackReturns]

/-- `pct_change` keeps the column length. -/
theorem length_pctChangeFill (xs : List ℚ) : (pctChangeFill xs).length = xs.length := by
  cases xs with
  | nil => rfl
  | cons x rest => simp [pctChangeFill]

/-- `shift(1).fillna(0)` keeps the column length. -/
theorem length_shiftFill (xs : List ℚ) : (shiftFill xs).length = xs.length := by
  cases xs with
  | nil => rfl
  | cons x rest => simp [shiftFill]

/-- First entry of a zero-filled one-period shift is `0`. -/
theorem shiftFill_getD_zero (xs : List ℚ) : (shiftFill xs).getD 0 0 = 0 := by
  cases xs <;> simp [shiftFill]

/-- In-range later entries of the shift are the predecessors. -/
theorem shiftFill_getD_succ (xs : List ℚ) (t : ℕ) (h1 : 0 < t) (h2 : t < xs.length) :
    (shiftFill xs).getD t 0 = xs.getD (t - 1) 0 := by
  cases xs with
  | nil => simp at h2
  | cons x rest =>
    obtain ⟨k, rfl⟩ : ∃ k, t = k + 1 := ⟨t - 1, by omega⟩
    simp only [shiftFill, List.getD_cons_succ, Nat.add_sub_cancel]
    rw [List.getD_eq_getElem?_getD, List.getD_eq_getElem?_getD, List.getElem?_dropLast,
      if_pos (by simpa using h2)]

/-! ### Claim theorems -/

/-- C8: for every supplied weight vector over a non-empty asset universe,
the normalized weights used by the engine sum to exactly 1; a non-zero
supplied sum divides each aligned weight by that sum, and a zero supplied
sum falls back to the equal weight `1 / n` per asset. -/
theorem claim_C8_normalized_weights {α : Type} [DecidableEq α]
    (ws : List (α × ℚ)) (columns : List α) (hcols : columns ≠ []) :
    (normalize_weights ws columns).sum = 1 ∧
    ((columns.map (lookupWeight ws)).sum ≠ 0 →
      normalize_weights ws columns =
        (columns.map (lookupWeight ws)).map
          fun x => x / (columns.map (lookupWeight ws)).sum) ∧
    ((columns.map (lookupWeight ws)).sum = 0 →
      normalize_weights ws columns = columns.map fun _ => 1 / (columns.length : ℚ)) := by
  refine ⟨normalize_weights_sum ws columns hcols, fun hs => ?_, fun hs => ?_⟩
  · simp only [normalize_weights]
    rw [if_neg hs]
  · simp only [normalize_weights]
    rw [if_pos hs]

/-- Witness for C8 at a concrete weight vector: supplied weights
`{0 ↦ 2}` over the two-asset universe `[0, 1]` normalize to `[1, 0]`,
which sums to 1. -/
theorem claim_C8_witness :
    ([0, 1] : List ℕ) ≠ [] ∧ (normalize_weights [(0, (2 : ℚ))] [0, 1]).sum = 1 :=
  ⟨by decide, (claim_C8_normalized_weights [(0, (2 : ℚ))] [0, 1] (by decide)).1⟩

/-- C5 counterexample: on the price series `[-1]` (first valid price
`≤ 0`) and capital 100, `buy_and_hold_strategy` does NOT fail with any
error: it returns a normal `ok` frame whose `Holdings` and
`Strategy_Return` columns are all-NaN. -/
theorem claim_C5_counterexample :
    buy_and_hold_strategy [some (-1)] 100 = .ok ⟨[-1], [none], [none]⟩ ∧
    (buy_and_hold_strategy [some (-1)] 100).isOk = true := by
  constructor <;> rfl

/-- C5 amended: for every price series whose first valid price is `≤ 0`
and every initial capital, `buy_and_hold_strategy` returns a normal (ok)
result whose `Holdings` and `Strategy_Return` columns are entirely
missing (NaN) — it does not raise `InvalidInputError`. -/
theorem claim_C5_nonpositive_price (data : List (Option ℚ)) (cap p0 : ℚ)
    (rest : List ℚ) (hcl : data.filterMap id = p0 :: rest) (hp : p0 ≤ 0) :
    buy_and_hold_strategy data cap =
      .ok ⟨p0 :: rest, (p0 :: rest).map fun _ => none,
        (p0 :: rest).map fun _ => none⟩ := by
  unfold buy_and_hold_strategy
  rw [hcl]
  simp [hp]

/-- Witness for C5 at the concrete series `[-1]` with capital 100. -/
theorem claim_C5_witness :
    ([some (-1)] : List (Option ℚ)).filterMap id = [(-1 : ℚ)] ∧ ((-1 : ℚ) ≤ 0) ∧
    buy_and_hold_strategy [some (-1)] 100 =
      .ok ⟨[-1], [none], [none]⟩ :=
  ⟨by decide, by decide,
    claim_C5_nonpositive_price [some (-1)] 100 (-1) [] (by decide) (by decide)⟩

/-- Signal entries can only be `0` or `1`. -/
theorem signalsOf_getD_cases (cl : List ℚ) (lb : ℕ) (th : ℚ) (t : ℕ) :
    (signalsOf cl lb th).getD t 0 = 0 ∨ (signalsOf cl lb th).getD t 0 = 1 := by
  rw [signalsOf, List.getD_eq_getElem?_getD, List.getElem?_map]
  cases h : (lookbackReturns cl lb)[t]? with
  | none => simp
  | some r? =>
    cases r? with
    | none => simp
    | some r =>
      by_cases hr : th < r <;> simp [hr]

/-- During the first `lookback` dates the lookback return is missing, so
the signal is `0`. -/
theorem signalsOf_getD_early (cl : List ℚ) (lb : ℕ) (th : ℚ) (t : ℕ) (ht : t < lb) :
    (signalsOf cl lb th).getD t 0 = 0 := by
  rw [signalsOf, List.getD_eq_getElem?_getD, List.getElem?_map]
  by_cases hn : t < cl.length
  · have hso : (shiftOpt lb cl)[t]? = some none := by
      rw [shiftOpt, List.getElem?_append,
        if_pos (by simp only [List.length_replicate]; omega),
        List.getElem?_replicate, if_pos (by omega)]
    rw [lookbackReturns, List.getElem?_zipWith', List.getElem?_eq_getElem hn, hso]
    simp
  · rw [List.getElem?_eq_none (by rw [length_lookbackReturns]; omega)]
    simp

/-- C10: for every price series, lookback and threshold, the momentum
signal is always `0` or `1` — the implementation has no short (`-1`)
variant — and during the first `lookback` dates (undefined lookback
return) it is `0`. -/
theorem claim_C10_signal_zero_one (data : List (Option ℚ)) (cap : ℚ)
    (lb : ℕ) (th : ℚ) (t : ℕ) :
    ((momentum_strategy data cap lb th).signal.getD t 0 = 0 ∨
      (momentum_strategy data cap lb th).signal.getD t 0 = 1) ∧
    (t < lb → (momentum_strategy data cap lb th).signal.getD t 0 = 0) := by
  have hsig : (momentum_strategy data cap lb th).signal
      = signalsOf (data.filterMap id) lb th := rfl
  rw [hsig]
  exact ⟨signalsOf_getD_cases _ lb th t, fun ht => signalsOf_getD_early _ lb th t ht⟩

/-- Witness for C10: on the concrete series `[1, 2]` with lookback 5, the
date `t = 1` lies in the warm-up window and its signal is `0`. -/
theorem claim_C10_witness :
    (1 < 5) ∧ (momentum_strategy [some 1, some 2] 100 5 (1/50)).signal.getD 1 0 = 0 :=
  ⟨by decide,
    (claim_C10_signal_zero_one [some 1, some 2] 100 5 (1/50) 1).2 (by decide)⟩

/-- C4: the momentum strategy return at date `t` is the signal computed
at date `t - 1` times the asset return at date `t`, with a missing prior
signal (at `t = 0`) counting as `0`.  The return at `t` therefore never
uses the signal computed at `t` itself: a price jump at `t` enters the
signal only from `t` onwards and the invested return only from `t + 1`. -/
theorem claim_C4_momentum_lag (data : List (Option ℚ)) (cap : ℚ)
    (lb : ℕ) (th : ℚ) (t : ℕ) :
    (momentum_strategy data cap lb th).strategyReturn.getD t 0 =
      (if t = 0 then 0
       else (momentum_strategy data cap lb th).signal.getD (t - 1) 0) *
        (momentum_strategy data cap lb th).assetReturn.getD t 0 := by
  have hrw : (momentum_strategy data cap lb th).strategyReturn
      = strategyReturnsOf (data.filterMap id) lb th := rfl
  have hsig : (momentum_strategy data cap lb th).signal
      = signalsOf (data.filterMap id) lb th := rfl
  have har : (momentum_strategy data cap lb th).assetReturn
      = assetReturns (data.filterMap id) := rfl
  rw [hrw, hsig, har]
  clear hrw hsig har
  generalize data.filterMap id = cl
  have hmul : (strategyReturnsOf cl lb th).getD t 0
      = (shiftFill (signalsOf cl lb th)).getD t 0 * (assetReturns cl).getD t 0 := by
    rw [strategyReturnsOf]
    exact getD_zipWith_mul _ _ t
  rw [hmul]
  by_cases ht0 : t = 0
  · subst ht0
    rw [shiftFill_getD_zero]
    simp
  · rw [if_neg ht0]
    by_cases hlt : t < cl.length
    · rw [shiftFill_getD_succ _ t (by omega)
        (by rw [length_signalsOf]; exact hlt)]
    · have hz : (assetReturns cl).getD t 0 = 0 := by
        rw [List.getD_eq_getElem?_getD,
          List.getElem?_eq_none (by rw [assetReturns, length_pctChangeFill]; omega)]
        rfl
      rw [hz, mul_zero, mul_zero]

/-- A series with a defined sample variance has at least two points. -/
theorem ne_nil_of_sampleVarQ_some (xs : List ℚ) (v : ℚ)
    (h : sampleVarQ xs = some v) : xs ≠ [] := by
  intro hx
  rw [hx] at h
  simp [sampleVarQ] at h

/-- Annualized volatility of a zero variance is zero. -/
theorem annVol_zero (N : ℕ) : annVol 0 N = 0 := by
  simp [annVol]

/-- On a flat series (sample variance exactly 0) the single-asset module
substitutes the finite Sharpe value `0.0`. -/
theorem singleSharpe_of_var_zero (holdings rets : List (Option ℚ)) (N : ℕ)
    (hvar : sampleVarQ (rets.filterMap id) = some 0) :
    singleSharpe holdings rets N = some 0 := by
  have hrv := ne_nil_of_sampleVarQ_some _ _ hvar
  simp only [singleSharpe]
  by_cases hh : holdings.filterMap id = []
  · rw [if_pos hh]
  · rw [if_neg hh, if_neg hrv, hvar]
    simp [annVol_zero]

/-- On a flat series the portfolio module reports a NaN Sharpe ratio. -/
theorem portSharpe_of_var_zero (prets : List ℚ) (N : ℕ) (rf : ℚ)
    (hvar : sampleVarQ prets = some 0) :
    portSharpe prets N rf = some none := by
  have hp := ne_nil_of_sampleVarQ_some _ _ hvar
  simp only [portSharpe]
  rw [if_neg hp, hvar]
  simp [annVol_zero]

/-- C1 counterexample: on the one-return series `[1/10]` with
`periodsPerYear = 2`, the portfolio metrics calculator reports `1/5`
(arithmetic scaling `mean × periodsPerYear`), not the geometrically
compounded `(1 + mean)^periodsPerYear - 1 = 21/100` the claim states. -/
theorem claim_C1_counterexample :
    portMeanAnnual [1/10] 2 ≠ some ((1 + listMean [1/10]) ^ 2 - 1) := by
  simp only [portMeanAnnual, listMean]
  norm_num

/-- C1 amended: for every non-empty periodic return series, the
single-asset metrics calculator annualizes geometrically —
`(1 + mean)^periodsPerYear - 1` — but the portfolio metrics calculator
annualizes arithmetically, reporting `mean × periodsPerYear`. -/
theorem claim_C1_annualized_return (holdings rets : List (Option ℚ))
    (prets : List ℚ) (N : ℕ)
    (hh : holdings.filterMap id ≠ []) (hr : rets.filterMap id ≠ [])
    (hp : prets ≠ []) :
    singleAnnualReturn holdings rets N
        = (1 + listMean (rets.filterMap id)) ^ N - 1 ∧
    portMeanAnnual prets N = some (listMean prets * N) := by
  constructor
  · simp only [singleAnnualReturn]
    rw [if_neg hh, if_neg hr]
  · simp only [portMeanAnnual]
    rw [if_neg hp]

/-- Witness for C1 at concrete data: return series `[1/10]` with
`periodsPerYear = 2` gives single-asset annual return `21/100` and
portfolio `mean_annual = 1/5`. -/
theorem claim_C1_witness :
    ([some 1] : List (Option ℚ)).filterMap id ≠ [] ∧
    ([some (1/10)] : List (Option ℚ)).filterMap id ≠ [] ∧
    ([1/10] : List ℚ) ≠ [] ∧
    singleAnnualReturn [some 1] [some (1/10)] 2 = 21/100 ∧
    portMeanAnnual [1/10] 2 = some (1/5) := by
  have h := claim_C1_annualized_return [some 1] [some (1/10)] [1/10] 2
    (by decide) (by decide) (by decide)
  refine ⟨by decide, by decide, by decide, h.1.trans ?_, h.2.trans ?_⟩
  · norm_num [listMean, List.filterMap_cons]
  · norm_num [listMean]

/-- C3 counterexample: the flat strategy-return series `[0, 0]` has
sample standard deviation exactly 0, yet the single-asset metrics
calculator reports the silently substituted finite Sharpe value `0.0`
rather than the claimed not-a-number. -/
theorem claim_C3_counterexample :
    sampleVarQ (([some 0, some 0] : List (Option ℚ)).filterMap id) = some 0 ∧
    singleSharpe [some 100, some 100] [some 0, some 0] 252 = some 0 ∧
    some (0 : ℝ) ≠ (none : Option ℝ) :=
  ⟨by norm_num [sampleVarQ, listMean, List.filterMap_cons],
    singleSharpe_of_var_zero _ _ _ (by norm_num [sampleVarQ, listMean, List.filterMap_cons]),
    by simp⟩

/-- C3 amended: on a flat series the portfolio metrics calculator does
report NaN, but the single-asset one substitutes the finite value `0.0`;
with positive volatility the portfolio Sharpe is
`(annualized return − riskFreeRate) / annualized volatility` and the
single-asset Sharpe is `annualized return / annualized volatility` (that
module takes no risk-free rate). -/
theorem claim_C3_sharpe_zero_vol_policy (holdings rets : List (Option ℚ))
    (prets : List ℚ) (N : ℕ) (rf : ℚ) :
    (sampleVarQ (rets.filterMap id) = some 0 →
      singleSharpe holdings rets N = some 0) ∧
    (sampleVarQ prets = some 0 → portSharpe prets N rf = some none) ∧
    (∀ v : ℚ, sampleVarQ (rets.filterMap id) = some v → 0 < v → 0 < N →
      holdings.filterMap id ≠ [] →
      singleVolatility holdings rets N
          = some (Real.sqrt (v : ℝ) * Real.sqrt (N : ℝ)) ∧
      singleSharpe holdings rets N
          = some ((singleAnnualReturn holdings rets N : ℝ) /
              (Real.sqrt (v : ℝ) * Real.sqrt (N : ℝ)))) ∧
    (∀ v : ℚ, sampleVarQ prets = some v → 0 < v → 0 < N →
      portVolAnnual prets N = some (some (Real.sqrt (v : ℝ) * Real.sqrt (N : ℝ))) ∧
      portSharpe prets N rf
          = some (some ((((listMean prets * N : ℚ) : ℝ) - (rf : ℝ)) /
              (Real.sqrt (v : ℝ) * Real.sqrt (N : ℝ))))) := by
  refine ⟨singleSharpe_of_var_zero holdings rets N,
    portSharpe_of_var_zero prets N rf, fun v hvar hv hN hh => ?_, fun v hvar hv hN => ?_⟩
  · have hrv := ne_nil_of_sampleVarQ_some _ _ hvar
    have hvol : (0 : ℝ) < Real.sqrt (v : ℝ) * Real.sqrt (N : ℝ) :=
      mul_pos (Real.sqrt_pos.mpr (by exact_mod_cast hv))
        (Real.sqrt_pos.mpr (by exact_mod_cast hN))
    constructor
    · simp only [singleVolatility]
      rw [if_neg hh, if_neg hrv, hvar]
      simp [annVol]
    · simp only [singleSharpe]
      rw [if_neg hh, if_neg hrv, hvar]
      simp only [Option.map_some', annVol]
      rw [if_pos hvol]
  · have hp := ne_nil_of_sampleVarQ_some _ _ hvar
    have hvol : (0 : ℝ) < Real.sqrt (v : ℝ) * Real.sqrt (N : ℝ) :=
      mul_pos (Real.sqrt_pos.mpr (by exact_mod_cast hv))
        (Real.sqrt_pos.mpr (by exact_mod_cast hN))
    constructor
    · simp only [portVolAnnual]
      rw [if_neg hp, hvar]
      simp [annVol]
    · simp only [portSharpe]
      rw [if_neg hp, hvar]
      simp only [Option.map_some', annVol]
      rw [if_pos hvol]

/-- Witness for C3 on the flat series `[0, 0]`: the portfolio Sharpe is
NaN and the single-asset Sharpe is the substituted `0.0`. -/
theorem claim_C3_witness :
    sampleVarQ (([some 0, some 0] : List (Option ℚ)).filterMap id) = some 0 ∧
    singleSharpe [some 1, some 1] [some 0, some 0] 252 = some 0 ∧
    portSharpe [0, 0] 252 0 = some none := by
  have h := claim_C3_sharpe_zero_vol_policy [some 1, some 1] [some 0, some 0]
    [0, 0] 252 0
  exact ⟨by norm_num [sampleVarQ, listMean, List.filterMap_cons],
    h.1 (by norm_num [sampleVarQ, listMean, List.filterMap_cons]),
    h.2.1 (by norm_num [sampleVarQ, listMean])⟩

/-- C2: evaluation of `_rebal_dates` at concrete failing inputs.  On the
two-date weekday index 1970-01-05 (Monday, day 4) and 1970-01-06
(Tuesday, day 5) — one calendar week — the weekly schedule produces NO
rebalancing date, because the source intersects the index with the
resample *labels* (Sundays), while the claim (and the source's own
comment) require the last in-index date of the week, `[5]`.  Likewise for
the monthly schedule on 1970-01-29/30 (days 28, 29): the month-end label
(1970-01-31, day 30) is absent from the index, so the source returns
nothing instead of `[29]`.  The daily and none schedules behave as
claimed. -/
theorem claim_C2_rebal_dates_label_bug :
    rebal_dates [4, 5] Sched.weekly = [] ∧
    specWeeklyRebalDates [4, 5] = [5] ∧
    rebal_dates [28, 29] Sched.monthly = [] ∧
    specMonthlyRebalDates [28, 29] = [29] ∧
    rebal_dates [4, 5] Sched.daily = [4, 5] ∧
    rebal_dates [4, 5] Sched.snone = [] := by
  decide

/-- Reading an in-range position of a mapped list, with any defaults. -/
theorem getD_map_lt {α β : Type} (f : α → β) (l : List α) (t : ℕ)
    (h : t < l.length) (d : β) (d0 : α) :
    (l.map f).getD t d = f (l.getD t d0) := by
  rw [List.getD_eq_getElem?_getD, List.getElem?_map, List.getElem?_eq_getElem h,
    List.getD_eq_getElem?_getD, List.getElem?_eq_getElem h]
  rfl

/-- Under schedule `none` the units are never reset, so the loop is a
plain map of `Σ units · normalized price` over the rows. -/
theorem pvLoop_snone {n : ℕ} (w : Fin n → ℚ) (d0 : ℕ) (rebal : List ℕ)
    (rows : List (ℕ × (Fin n → ℚ))) (units : Fin n → ℚ) :
    pvLoop w d0 rebal Sched.snone rows units
      = rows.map fun r => ∑ i, units i * r.2 i := by
  induction rows generalizing units with
  | nil => rfl
  | cons r rest ih =>
    obtain ⟨dt, nrow⟩ := r
    simp only [pvLoop, List.map_cons]
    rw [if_neg (by simp), ih]

/-- C6: for a fully-populated price table under schedule `none`, the
portfolio value at every date `t` is the no-reset drift formula
`Σ_i w_i · (p_{i,t} / p_{i,0})` with `w` the normalized weights, and the
value at the first date is exactly the configured initial value `1`. -/
theorem claim_C6_schedule_none_drift {n : ℕ} (hn : 0 < n) (d0 : ℕ)
    (r0 : Fin n → ℚ) (rest : List (ℕ × (Fin n → ℚ))) (ws : List (Fin n × ℚ))
    (hpos : ∀ i, 0 < r0 i) :
    (compute_portfolio_value ((d0, r0) :: rest) ws Sched.snone).length
        = ((d0, r0) :: rest).length ∧
    (∀ t, t < ((d0, r0) :: rest).length →
      (compute_portfolio_value ((d0, r0) :: rest) ws Sched.snone).getD t 0 =
        ∑ i, wOf ws i *
          ((((d0, r0) :: rest).getD t (0, fun _ => 0)).2 i / r0 i)) ∧
    (compute_portfolio_value ((d0, r0) :: rest) ws Sched.snone).getD 0 0 = 1 := by
  have hkey : compute_portfolio_value ((d0, r0) :: rest) ws Sched.snone
      = ((d0, r0) :: rest).map fun p => ∑ i, wOf ws i * (p.2 i / r0 i) := by
    simp only [compute_portfolio_value]
    rw [if_neg hn.ne', pvLoop_snone, List.map_map]
    refine List.map_congr_left fun p _ => ?_
    refine Finset.sum_congr rfl fun i _ => ?_
    have hu : 1 * wOf ws i / (r0 i / r0 i) = wOf ws i := by
      rw [div_self (hpos i).ne', one_mul, div_one]
    simp only [Function.comp]
    rw [← hu]
    rfl
  have hlen : (compute_portfolio_value ((d0, r0) :: rest) ws Sched.snone).length
      = ((d0, r0) :: rest).length := by
    rw [hkey, List.length_map]
  have hpt : ∀ t, t < ((d0, r0) :: rest).length →
      (compute_portfolio_value ((d0, r0) :: rest) ws Sched.snone).getD t 0 =
        ∑ i, wOf ws i *
          ((((d0, r0) :: rest).getD t (0, fun _ => 0)).2 i / r0 i) := by
    intro t ht
    rw [hkey, getD_map_lt _ _ t ht 0 (0, fun _ => 0)]
  refine ⟨hlen, hpt, ?_⟩
  rw [hpt 0 (by simp)]
  have : ∀ i, wOf ws i * ((((d0, r0) :: rest).getD 0 (0, fun _ => 0)).2 i / r0 i)
      = wOf ws i := by
    intro i
    simp only [List.getD_cons_zero]
    rw [div_self (hpos i).ne', mul_one]
  rw [Finset.sum_congr rfl fun i _ => this i, wOf_sum hn]

/-- Witness for C6 on a concrete 2×2 price table: all hypotheses hold and
the first portfolio value is exactly 1. -/
theorem claim_C6_witness :
    (0 < 2) ∧ (∀ i : Fin 2, 0 < (fun _ => (1 : ℚ)) i) ∧
    (compute_portfolio_value (n := 2)
        [(0, fun _ => 1), (1, fun _ => 2)] [(0, 1), (1, 3)] Sched.snone).getD 0 0
      = 1 :=
  ⟨by decide, by decide,
    (claim_C6_schedule_none_drift (n := 2) (by decide) 0 (fun _ => 1)
      [(1, fun _ => 2)] [(0, 1), (1, 3)] (by decide)).2.2⟩

/-- C7: for every return table with at least two rows and every weight
vector, when the portfolio variance `wᵗΣw` is positive the risk
decomposer returns per-asset rows whose risk contributions
`w_i (Σw)_i / wᵗΣw` sum to exactly 1; when `wᵗΣw ≤ 0` it returns the
empty result instead of dividing by zero. -/
theorem claim_C7_risk_contributions_sum {n : ℕ} (rets : List (Fin n → ℚ))
    (ws : List (Fin n × ℚ)) (N : ℕ) (h2 : 2 ≤ rets.length) :
    (0 < portVarOf rets ws N →
      compute_risk_contributions rets ws N
          = some (fun i => (wOf ws i, mrcOf rets ws N i,
              wOf ws i * mrcOf rets ws N i / portVarOf rets ws N)) ∧
      ∑ i, wOf ws i * mrcOf rets ws N i / portVarOf rets ws N = 1) ∧
    (portVarOf rets ws N ≤ 0 → compute_risk_contributions rets ws N = none) := by
  have hne : rets ≠ [] := by
    intro h
    rw [h] at h2
    simp at h2
  constructor
  · intro hpv
    have hn0 : n ≠ 0 := by
      intro h
      subst h
      simp [portVarOf] at hpv
    constructor
    · simp only [compute_risk_contributions]
      rw [if_neg (by simp [hne, hn0]), if_neg (not_le.mpr hpv)]
    · rw [← Finset.sum_div]
      exact div_self (ne_of_gt hpv)
  · intro hpv
    simp only [compute_risk_contributions]
    by_cases hn0 : n = 0
    · rw [if_pos (Or.inr hn0)]
    · rw [if_neg (by simp [hne, hn0]), if_pos hpv]

/-- Witness for C7 on a concrete two-asset, two-row return table with
positive portfolio variance. -/
theorem claim_C7_witness :
    (2 ≤ ([fun _ => (0 : ℚ), fun i => if i = 0 then 1 else 0] :
        List (Fin 2 → ℚ)).length) ∧
    (0 < portVarOf (n := 2) [fun _ => (0 : ℚ), fun i => if i = 0 then 1 else 0]
        [(0, 1), (1, 1)] 1) ∧
    ∑ i, wOf (n := 2) [(0, 1), (1, 1)] i *
        mrcOf (n := 2) [fun _ => (0 : ℚ), fun i => if i = 0 then 1 else 0]
          [(0, 1), (1, 1)] 1 i /
        portVarOf (n := 2) [fun _ => (0 : ℚ), fun i => if i = 0 then 1 else 0]
          [(0, 1), (1, 1)] 1
      = 1 := by
  have hpv : (0 : ℚ) < portVarOf (n := 2)
      [fun _ => (0 : ℚ), fun i => if i = 0 then 1 else 0] [(0, 1), (1, 1)] 1 := by
    norm_num [portVarOf, mrcOf, covAnn, colMean, wOf, normalize_weights, lookupWeight,
      Fin.sum_univ_succ, List.finRange_succ_eq_map, List.finRange_zero, listMean]
  exact ⟨by decide, hpv,
    ((claim_C7_risk_contributions_sum (n := 2)
      [fun _ => (0 : ℚ), fun i => if i = 0 then 1 else 0] [(0, 1), (1, 1)] 1
      (by decide)).1 hpv).2⟩

/-- The recursive forecast produces exactly `horizon` predictions. -/
theorem length_futurePredsFrom (coef : Fin 5 → ℝ) (icept : ℝ) (x : Fin 5 → ℝ)
    (h : ℕ) : (futurePredsFrom coef icept x h).length = h := by
  induction h generalizing x with
  | zero => rfl
  | succ k ih => simp only [futurePredsFrom, List.length_cons, ih]

/-- C9: the forecast's uncertainty band has constant width across the
horizon: at every step `k`, `upperBand[k] − pointForecast[k]` and
`pointForecast[k] − lowerBand[k]` both equal `1.96 × RMSE`, with the RMSE
computed once from the held-out test residuals — the band does not widen
with the forecast step. -/
theorem claim_C9_constant_band (coef : Fin 5 → ℝ) (icept : ℝ)
    (data : List (Option ℚ)) (horizon k : ℕ)
    (hdata : 6 ≤ (data.filterMap id).length) (hk : k < horizon) :
    (run_predictive_model coef icept data horizon).futurePreds.length = horizon ∧
    (run_predictive_model coef icept data horizon).upperBound.getD k 0
        - (run_predictive_model coef icept data horizon).futurePreds.getD k 0
      = 1.96 * testRMSE coef icept (data.filterMap id) ∧
    (run_predictive_model coef icept data horizon).futurePreds.getD k 0
        - (run_predictive_model coef icept data horizon).lowerBound.getD k 0
      = 1.96 * testRMSE coef icept (data.filterMap id) := by
  have hpreds : (run_predictive_model coef icept data horizon).futurePreds
      = futurePredsFrom coef icept (lastFeatures (data.filterMap id)) horizon := rfl
  have hup : (run_predictive_model coef icept data horizon).upperBound
      = (run_predictive_model coef icept data horizon).futurePreds.map
          (· + 1.96 * testRMSE coef icept (data.filterMap id)) := rfl
  have hlo : (run_predictive_model coef icept data horizon).lowerBound
      = (run_predictive_model coef icept data horizon).futurePreds.map
          (· - 1.96 * testRMSE coef icept (data.filterMap id)) := rfl
  have hlen : (run_predictive_model coef icept data horizon).futurePreds.length
      = horizon := by
    rw [hpreds, length_futurePredsFrom]
  have hklen : k < (run_predictive_model coef icept data horizon).futurePreds.length := by
    rw [hlen]; exact hk
  refine ⟨hlen, ?_, ?_⟩
  · rw [hup, getD_map_lt _ _ k hklen 0 0]
    ring
  · rw [hlo, getD_map_lt _ _ k hklen 0 0]
    ring

/-- Witness for C9: concrete ten-point series, zero fitted model,
horizon 1, step 0. -/
theorem claim_C9_witness :
    (6 ≤ (((List.range 10).map fun t => some (t : ℚ)).filterMap id).length) ∧
    (0 < 1) ∧
    (run_predictive_model (fun _ => 0) 0 ((List.range 10).map fun t => some (t : ℚ))
        1).futurePreds.length = 1 :=
  ⟨by decide, by decide,
    (claim_C9_constant_band (fun _ => 0) 0 ((List.range 10).map fun t => some (t : ℚ))
      1 0 (by decide) (by decide)).1⟩
